import Mathlib

/-!
Verification development for the scoring HTTP API (api.py).

The Python source is shallowly embedded: JSON-derived Python values become
the inductive PyValue; field descriptors become FieldSpec records with a
FieldType tag; Python exceptions raised by validators are modelled with
PyErr (ValueError versus TypeError, since BaseRequest.validate catches only
ValueError); code that can raise an uncaught exception returns Except, where
Except.error models an exception propagating to the HTTP layer.  The SHA-512
hex digest, the current-hour key of the admin token, the current year used by
BirthDayField, and the external collaborators get_score and get_interests are
taken as parameters, since they are ambient inputs of the code.
-/

deriving instance DecidableEq for Except

namespace ScoringApi

/-! Python values reachable from a JSON request body. -/

mutual

inductive PyValue where
  | none : PyValue
  | str : String → PyValue
  | int : Int → PyValue
  | list : PyList → PyValue
  | dict : PyDict → PyValue
  deriving DecidableEq

inductive PyList where
  | nil : PyList
  | cons : PyValue → PyList → PyList
  deriving DecidableEq

inductive PyDict where
  | nil : PyDict
  | cons : String → PyValue → PyDict → PyDict
  deriving DecidableEq

end

def PyList.toList : PyList → List PyValue
  | .nil => []
  | .cons v rest => v :: rest.toList

def PyDict.toList : PyDict → List (String × PyValue)
  | .nil => []
  | .cons k v rest => (k, v) :: rest.toList

/-! Association lists with Python dict semantics: lookup by key equality and
insert-or-replace that keeps the original position of a replaced key,
mirroring CPython insertion-ordered dicts. -/

def alookup {α β : Type} [DecidableEq α] (k : α) : List (α × β) → Option β
  | [] => Option.none
  | (ka, v) :: rest => if ka = k then some v else alookup k rest

def dictInsert {α β : Type} [DecidableEq α] (k : α) (v : β) : List (α × β) → List (α × β)
  | [] => [(k, v)]
  | (ka, va) :: rest => if ka = k then (k, v) :: rest else (ka, va) :: dictInsert k v rest

/-! Constants from api.py. -/

def SALT : String := "Otus"

def ADMIN_LOGIN : String := "admin"

def ADMIN_SALT : String := "42"

/-! Python exceptions raised by field validators.  BaseRequest.validate
catches only ValueError; a TypeError propagates out of validate(). -/

inductive PyErr where
  | valueError : String → PyErr
  | typeError : String → PyErr
  deriving DecidableEq

/-! Field descriptors.  Field.empty_values is the tuple (None, (), [],)
paired with the empty string; membership is Python equality, so the empty
dict is NOT an empty value (it differs from every element of the tuple).
Tuples cannot occur in a JSON-derived value, so they are not modelled. -/

def isEmptyValue : PyValue → Bool
  | .none => true
  | .str s => s.isEmpty
  | .list l => l = PyList.nil
  | _ => false

inductive FieldType where
  | char : FieldType
  | arguments : FieldType
  | email : FieldType
  | phone : FieldType
  | date : FieldType
  | birthday : FieldType
  | gender : FieldType
  | clientIds : FieldType
  deriving DecidableEq

structure FieldSpec where
  ftype : FieldType
  required : Bool
  nullable : Bool
  deriving DecidableEq

/-! Date parsing, mirroring datetime.strptime(value, the dotted
day-month-year format): day and month are one or two digits with their
calendar ranges, the year exactly four digits, and the date must exist
in the proleptic Gregorian calendar with year at least 1. -/

def isLeapYear (y : Nat) : Bool :=
  y % 4 == 0 && (y % 100 != 0 || y % 400 == 0)

def daysInMonth (y m : Nat) : Nat :=
  if m == 2 then (if isLeapYear y then 29 else 28)
  else if m == 4 || m == 6 || m == 9 || m == 11 then 30
  else 31

def splitOnDot : List Char → List (List Char)
  | [] => [[]]
  | c :: rest =>
    if c = '.' then [] :: splitOnDot rest
    else
      match splitOnDot rest with
      | grp :: grps => (c :: grp) :: grps
      | [] => [[c]]

def digitsToNat : List Char → Nat → Nat
  | [], acc => acc
  | c :: rest, acc => digitsToNat rest (acc * 10 + (c.toNat - 48))

def parseDate (s : String) : Option (Nat × Nat × Nat) :=
  match splitOnDot s.data with
  | [ds, ms, ys] =>
    if ds.length ≥ 1 && ds.length ≤ 2 && ds.all Char.isDigit &&
       ms.length ≥ 1 && ms.length ≤ 2 && ms.all Char.isDigit &&
       ys.length == 4 && ys.all Char.isDigit then
      let d := digitsToNat ds 0
      let m := digitsToNat ms 0
      let y := digitsToNat ys 0
      if 1 ≤ y && 1 ≤ m && m ≤ 12 && 1 ≤ d && d ≤ daysInMonth y m then
        some (d, m, y)
      else Option.none
    else Option.none
  | _ => Option.none

/-! String form of a Python value, as used by str(value).  The validators
apply it only to strings and integers, where it is exact; the placeholder
branches for containers are never reached by the embedded code paths. -/

def pyStrFn : PyValue → String
  | .str s => s
  | .int n => toString n
  | .none => "None"
  | .list _ => "<list>"
  | .dict _ => "<dict>"

/-! The per-type validate methods. -/

def charValidate : PyValue → Except PyErr Unit
  | .str _ => .ok ()
  | _ => .error (.valueError "This field must be a string")

def argumentsValidate : PyValue → Except PyErr Unit
  | .dict _ => .ok ()
  | _ => .error (.valueError "This field must be a dict")

def emailValidate : PyValue → Except PyErr Unit
  | .str s =>
    if s.data.contains '@' then .ok () else .error (.valueError "Invalid email address")
  | v => charValidate v

def startsWith7 (s : String) : Bool :=
  match s.data with
  | c :: _ => c = '7'
  | [] => false

def isDigitStr (s : String) : Bool :=
  !s.data.isEmpty && s.data.all Char.isDigit

def phoneOk (s : String) : Bool :=
  startsWith7 s && s.length == 11 && isDigitStr s

def isStrOrInt : PyValue → Bool
  | .str _ => true
  | .int _ => true
  | _ => false

def phoneValidate : PyValue → Except PyErr Unit
  | .str s =>
    if phoneOk s then .ok ()
    else .error (.valueError "Incorect phone number format, should be 7XXXXXXXXXX")
  | .int n =>
    if phoneOk (toString n) then .ok ()
    else .error (.valueError "Incorect phone number format, should be 7XXXXXXXXXX")
  | _ => .error (.valueError "Phone number must be numeric or string value")

/-! DateField.validate wraps strptime in try-except ValueError; calling
strptime on a non-string raises TypeError, which that except clause does
not catch. -/

def dateValidate : PyValue → Except PyErr Unit
  | .str s =>
    match parseDate s with
    | some _ => .ok ()
    | Option.none => .error (.valueError "Incorect date format, should be DD.MM.YYYY")
  | _ => .error (.typeError "strptime() argument 1 must be str")

def birthDayValidate (currentYear : Int) : PyValue → Except PyErr Unit
  | .str s =>
    match parseDate s with
    | some (_, _, y) =>
      if currentYear - (y : Int) > 70 then .error (.valueError "Incorrect birth day")
      else .ok ()
    | Option.none => .error (.valueError "Incorect date format, should be DD.MM.YYYY")
  | _ => .error (.typeError "strptime() argument 1 must be str")

/-! GenderField tests membership in the GENDERS dict, whose keys are the
integers 0, 1 and 2; hashing an unhashable value (list or dict) raises
TypeError before membership is decided. -/

def genderValidate : PyValue → Except PyErr Unit
  | .int n =>
    if n == 0 || n == 1 || n == 2 then .ok ()
    else .error (.valueError "Gender must be equal to 0,1 or 2")
  | .list _ => .error (.typeError "unhashable type")
  | .dict _ => .error (.typeError "unhashable type")
  | _ => .error (.valueError "Gender must be equal to 0,1 or 2")

def allNonNegInts : List PyValue → Bool
  | [] => true
  | .int n :: rest => decide (0 ≤ n) && allNonNegInts rest
  | _ => false

def clientIdsValidate : PyValue → Except PyErr Unit
  | .list l =>
    if allNonNegInts l.toList then .ok ()
    else .error (.valueError "All elements must be positive integers")
  | _ => .error (.valueError "Invalid data type, must be an array")

def fieldValidate (currentYear : Int) : FieldType → PyValue → Except PyErr Unit
  | .char, v => charValidate v
  | .arguments, v => argumentsValidate v
  | .email, v => emailValidate v
  | .phone, v => phoneValidate v
  | .date, v => dateValidate v
  | .birthday, v => birthDayValidate currentYear v
  | .gender, v => genderValidate v
  | .clientIds, v => clientIdsValidate v

/-! The three request schemas, in class-body declaration order. -/

def onlineScoreSchema : List (String × FieldSpec) :=
  [("first_name", ⟨.char, false, true⟩),
   ("last_name", ⟨.char, false, true⟩),
   ("email", ⟨.email, false, true⟩),
   ("phone", ⟨.phone, false, true⟩),
   ("birthday", ⟨.birthday, false, true⟩),
   ("gender", ⟨.gender, false, true⟩)]

def methodSchema : List (String × FieldSpec) :=
  [("account", ⟨.char, false, true⟩),
   ("login", ⟨.char, true, true⟩),
   ("token", ⟨.char, true, true⟩),
   ("arguments", ⟨.arguments, true, true⟩),
   ("method", ⟨.char, true, false⟩)]

def clientsInterestsSchema : List (String × FieldSpec) :=
  [("client_ids", ⟨.clientIds, true, false⟩),
   ("date", ⟨.date, false, true⟩)]

/-! Schema engine (BaseRequest.validate).  One loop iteration: an absent
field is an error iff required; a supplied empty value on a non-nullable
field records a blank error, after which the field validator still runs,
a raised ValueError overwriting that entry, while a TypeError aborts the
whole validate() call. -/

def stepField (currentYear : Int) (input : List (String × PyValue)) (name : String)
    (f : FieldSpec) (errs : List (String × String)) :
    Except String (List (String × String)) :=
  match alookup name input with
  | Option.none =>
    .ok (if f.required then dictInsert name "This field is required" errs else errs)
  | some v =>
    let errs1 := if isEmptyValue v && !f.nullable then
        dictInsert name "This field can\x27t be blank" errs
      else errs
    match fieldValidate currentYear f.ftype v with
    | .ok _ => .ok errs1
    | .error (.valueError m) => .ok (dictInsert name m errs1)
    | .error (.typeError m) => .error m

def validateGo (currentYear : Int) (input : List (String × PyValue)) :
    List (String × FieldSpec) → List (String × String) →
    Except String (List (String × String))
  | [], errs => .ok errs
  | (name, f) :: rest, errs =>
    match stepField currentYear input name f errs with
    | .ok errs1 => validateGo currentYear input rest errs1
    | .error e => .error e

def validateSchemaE (currentYear : Int) (schema : List (String × FieldSpec))
    (input : List (String × PyValue)) : Except String (List (String × String)) :=
  validateGo currentYear input schema []

/-! Specification of the net effect of one loop iteration on its own key,
used to state the per-field independence theorem. -/

def fieldOutcome (currentYear : Int) (input : List (String × PyValue)) (name : String)
    (f : FieldSpec) : Except String (Option String) :=
  match alookup name input with
  | Option.none => .ok (if f.required then some "This field is required" else Option.none)
  | some v =>
    match fieldValidate currentYear f.ftype v with
    | .ok _ =>
      .ok (if isEmptyValue v && !f.nullable then some "This field can\x27t be blank"
           else Option.none)
    | .error (.valueError m) => .ok (some m)
    | .error (.typeError m) => .error m

/-! OnlineScoreRequest.validate: the cross-field pair rule, checked on the
set of supplied field names only when the per-field pass left no errors. -/

def suppliedF (input : List (String × PyValue)) (name : String) : Bool :=
  (alookup name input).isSome

def hasPair (input : List (String × PyValue)) : Bool :=
  (suppliedF input "phone" && suppliedF input "email") ||
  (suppliedF input "first_name" && suppliedF input "last_name") ||
  (suppliedF input "gender" && suppliedF input "birthday")

def onlineScoreValidate (currentYear : Int) (input : List (String × PyValue)) :
    Except String (List (String × String)) :=
  match validateSchemaE currentYear onlineScoreSchema input with
  | .error e => .error e
  | .ok errs =>
    if errs.isEmpty then
      if hasPair input then .ok errs
      else .ok (dictInsert "arguments" "No valid arguments pair" errs)
    else .ok errs

/-! Value preparation (prepare_value) and item access (BaseRequest
indexing): an absent name yields Python None; a supplied name runs the
prepare_value of its declared field, which can itself raise. -/

inductive Prepared where
  | none : Prepared
  | val : PyValue → Prepared
  | str : String → Prepared
  | date : Nat → Nat → Nat → Prepared
  | int : Int → Prepared
  deriving DecidableEq

def prepDate : PyValue → Except String Prepared
  | .str s =>
    match parseDate s with
    | some (d, m, y) => .ok (.date d m y)
    | Option.none => .error "ValueError: time data does not match format"
  | _ => .error "TypeError: strptime() argument 1 must be str"

def strToInt : List Char → Option Int
  | [] => Option.none
  | '-' :: rest =>
    if !rest.isEmpty && rest.all Char.isDigit then some (-(digitsToNat rest 0 : Int))
    else Option.none
  | '+' :: rest =>
    if !rest.isEmpty && rest.all Char.isDigit then some ((digitsToNat rest 0 : Int))
    else Option.none
  | cs =>
    if cs.all Char.isDigit then some ((digitsToNat cs 0 : Int))
    else Option.none

def pyIntFn : PyValue → Except String Prepared
  | .int n => .ok (.int n)
  | .str s =>
    match strToInt s.data with
    | some n => .ok (.int n)
    | Option.none => .error "ValueError: invalid literal for int"
  | _ => .error "TypeError: int() argument"

def prepareValue : FieldType → PyValue → Except String Prepared
  | .char, v => .ok (.str (pyStrFn v))
  | .email, v => .ok (.str (pyStrFn v))
  | .arguments, v => .ok (.val v)
  | .phone, v => .ok (.val v)
  | .clientIds, v => .ok (.val v)
  | .date, v => prepDate v
  | .birthday, v => prepDate v
  | .gender, v => pyIntFn v

def getitemField (schema : List (String × FieldSpec)) (input : List (String × PyValue))
    (name : String) : Except String Prepared :=
  match alookup name input with
  | Option.none => .ok .none
  | some v =>
    match alookup name schema with
    | some f => prepareValue f.ftype v
    | Option.none => .error "KeyError"

/-! Arguments handed to the external get_score collaborator, in the
evaluation order of the call site. -/

structure ScoreArgs where
  phone : Prepared
  email : Prepared
  birthday : Prepared
  gender : Prepared
  first_name : Prepared
  last_name : Prepared
  deriving DecidableEq

def prepareArgs (input : List (String × PyValue)) : Except String ScoreArgs :=
  match getitemField onlineScoreSchema input "phone" with
  | .error e => .error e
  | .ok phone =>
    match getitemField onlineScoreSchema input "email" with
    | .error e => .error e
    | .ok email =>
      match getitemField onlineScoreSchema input "birthday" with
      | .error e => .error e
      | .ok birthday =>
        match getitemField onlineScoreSchema input "gender" with
        | .error e => .error e
        | .ok gender =>
          match getitemField onlineScoreSchema input "first_name" with
          | .error e => .error e
          | .ok first_name =>
            match getitemField onlineScoreSchema input "last_name" with
            | .error e => .error e
            | .ok last_name => .ok ⟨phone, email, birthday, gender, first_name, last_name⟩

/-! Authentication.  H is the SHA-512 hex digest; nowKey is the current
hour formatted YYYYMMDDHH.  Reading the account attribute of an envelope
that did not supply account yields the class-level CharField descriptor
object, and concatenating it with a string raises TypeError. -/

def loginIsAdmin (body : List (String × PyValue)) : Bool :=
  match alookup "login" body with
  | some (.str s) => s == ADMIN_LOGIN
  | _ => false

def tokenMatches (body : List (String × PyValue)) (digest : String) : Bool :=
  match alookup "token" body with
  | some (.str t) => digest == t
  | _ => false

def check_auth (H : String → String) (nowKey : String)
    (body : List (String × PyValue)) : Except String Bool :=
  if loginIsAdmin body then
    .ok (tokenMatches body (H (nowKey ++ ADMIN_SALT)))
  else
    match alookup "account" body with
    | some (.str a) =>
      match alookup "login" body with
      | some (.str l) => .ok (tokenMatches body (H (a ++ l ++ SALT)))
      | _ => .error "TypeError: can only concatenate str"
    | _ => .error "TypeError: can only concatenate str"

/-! Handler outcomes: the response value and status code, the two context
keys a handler may write, and the trace of get_interests queries. -/

inductive Resp where
  | errs : List (String × String) → Resp
  | text : String → Resp
  | score : Int → Resp
  | interests : List (PyValue × PyValue) → Resp
  deriving DecidableEq

structure Outcome where
  resp : Resp
  code : Nat
  ctxHas : Option (List String)
  ctxNclients : Option Nat
  queries : List PyValue
  deriving DecidableEq

def online_score_handler (gs : ScoreArgs → Int) (currentYear : Int) (isAdmin : Bool)
    (args : List (String × PyValue)) : Except String Outcome :=
  match onlineScoreValidate currentYear args with
  | .error e => .error e
  | .ok errs =>
    if errs.isEmpty then
      let has := args.map Prod.fst
      if isAdmin then .ok ⟨.score 42, 200, some has, Option.none, []⟩
      else
        match prepareArgs args with
        | .error e => .error e
        | .ok sa => .ok ⟨.score (gs sa), 200, some has, Option.none, []⟩
    else .ok ⟨.errs errs, 422, Option.none, Option.none, []⟩

def clients_interests_handler (gi : PyValue → PyValue) (currentYear : Int)
    (args : List (String × PyValue)) : Except String Outcome :=
  match validateSchemaE currentYear clientsInterestsSchema args with
  | .error e => .error e
  | .ok errs =>
    if errs.isEmpty then
      match alookup "client_ids" args with
      | some (.list ids) =>
        let cids := ids.toList
        let response := cids.foldl (fun acc cid => dictInsert cid (gi cid) acc) []
        .ok ⟨.interests response, 200, Option.none, some cids.length, cids⟩
      | _ => .error "TypeError: not iterable"
    else .ok ⟨.errs errs, 422, Option.none, Option.none, []⟩

def method_handler (H : String → String) (nowKey : String) (currentYear : Int)
    (gs : ScoreArgs → Int) (gi : PyValue → PyValue)
    (body : List (String × PyValue)) : Except String Outcome :=
  match validateSchemaE currentYear methodSchema body with
  | .error e => .error e
  | .ok errs =>
    if errs.isEmpty then
      match check_auth H nowKey body with
      | .error e => .error e
      | .ok auth =>
        if auth then
          match alookup "method" body with
          | some (.str m) =>
            if m = "online_score" then
              match alookup "arguments" body with
              | some (.dict args) =>
                online_score_handler gs currentYear (loginIsAdmin body) args.toList
              | _ => .error "TypeError: argument unpacking"
            else if m = "clients_interests" then
              match alookup "arguments" body with
              | some (.dict args) => clients_interests_handler gi currentYear args.toList
              | _ => .error "TypeError: argument unpacking"
            else .error "KeyError"
          | _ => .error "KeyError"
        else .ok ⟨.text "Forbidden", 403, Option.none, Option.none, []⟩
    else .ok ⟨.errs errs, 422, Option.none, Option.none, []⟩

/-! The catch-all in do_POST: an exception escaping method_handler is
logged and turned into a 500 response with the fixed message. -/

def dispatchWithCatch (H : String → String) (nowKey : String) (currentYear : Int)
    (gs : ScoreArgs → Int) (gi : PyValue → PyValue)
    (body : List (String × PyValue)) : Resp × Nat :=
  match method_handler H nowKey currentYear gs gi body with
  | .ok o => (o.resp, o.code)
  | .error _ => (.text "Internal Server Error", 500)

/-! Lemmas about association lists with dict semantics. -/

theorem alookup_dictInsert_self {α β : Type} [DecidableEq α] (k : α) (v : β)
    (d : List (α × β)) : alookup k (dictInsert k v d) = some v := by
  induction d with
  | nil => simp [dictInsert, alookup]
  | cons hd tl ih =>
    obtain ⟨ka, va⟩ := hd
    by_cases h : ka = k
    · simp [dictInsert, h, alookup]
    · simp [dictInsert, h, alookup, ih]

theorem alookup_dictInsert_ne {α β : Type} [DecidableEq α] {kx k : α} (v : β)
    (d : List (α × β)) (h : kx ≠ k) :
    alookup kx (dictInsert k v d) = alookup kx d := by
  induction d with
  | nil => simp [dictInsert, alookup, Ne.symm h]
  | cons hd tl ih =>
    obtain ⟨ka, va⟩ := hd
    by_cases hk : ka = k
    · subst hk
      simp [dictInsert, alookup, Ne.symm h]
    · simp only [dictInsert, if_neg hk, alookup]
      by_cases hx : ka = kx
      · simp [hx]
      · simp [hx, ih]

theorem dictInsert_dictInsert {α β : Type} [DecidableEq α] (k : α) (v w : β)
    (d : List (α × β)) : dictInsert k v (dictInsert k w d) = dictInsert k v d := by
  induction d with
  | nil => simp [dictInsert]
  | cons hd tl ih =>
    obtain ⟨ka, va⟩ := hd
    by_cases h : ka = k
    · simp [dictInsert, h]
    · simp [dictInsert, h, ih]

theorem dictInsert_of_not_mem {α β : Type} [DecidableEq α] {k : α} (v : β)
    {d : List (α × β)} (h : k ∉ d.map Prod.fst) :
    dictInsert k v d = d ++ [(k, v)] := by
  induction d with
  | nil => simp [dictInsert]
  | cons hd tl ih =>
    obtain ⟨ka, va⟩ := hd
    simp only [List.map, List.mem_cons, not_or] at h
    have hk : ka ≠ k := fun hh => h.1 hh.symm
    simp [dictInsert, hk, ih h.2]

/-! Lemmas about the schema engine. -/

theorem alookup_of_mem_nodup {β : Type} :
    ∀ (l : List (String × β)) (name : String) (b : β),
    (l.map Prod.fst).Nodup → (name, b) ∈ l → alookup name l = some b := by
  intro l
  induction l with
  | nil => intro name b _ hm; simp at hm
  | cons hd tl ih =>
    intro name b hnd hm
    obtain ⟨k0, b0⟩ := hd
    simp only [List.map, List.nodup_cons] at hnd
    rcases List.mem_cons.mp hm with heq | htl
    · injection heq with hk hb
      simp [alookup, hk.symm, hb]
    · have hk : k0 ≠ name := by
        intro hkk
        exact hnd.1 (hkk ▸ List.mem_map_of_mem Prod.fst htl)
      simp [alookup, hk, ih name b hnd.2 htl]

theorem stepField_eq_fieldOutcome (currentYear : Int) (input : List (String × PyValue))
    (name : String) (f : FieldSpec) (errs : List (String × String)) :
    stepField currentYear input name f errs =
      match fieldOutcome currentYear input name f with
      | .ok Option.none => .ok errs
      | .ok (some m) => .ok (dictInsert name m errs)
      | .error e => .error e := by
  unfold stepField fieldOutcome
  cases alookup name input with
  | none => by_cases hr : f.required <;> simp [hr]
  | some v =>
    cases hv : fieldValidate currentYear f.ftype v with
    | ok u => by_cases hc : (isEmptyValue v && !f.nullable) = true <;> simp [hc, hv]
    | error e =>
      cases e with
      | valueError m =>
        by_cases hc : (isEmptyValue v && !f.nullable) = true
        · simp [hc, hv, dictInsert_dictInsert]
        · simp [hc, hv]
      | typeError m => simp [hv]

theorem stepField_preserve {currentYear : Int} {input : List (String × PyValue)}
    {name : String} {f : FieldSpec} {errs errs1 : List (String × String)} {k : String}
    (h : stepField currentYear input name f errs = .ok errs1) (hk : k ≠ name) :
    alookup k errs1 = alookup k errs := by
  rw [stepField_eq_fieldOutcome] at h
  cases ho : fieldOutcome currentYear input name f with
  | error e => rw [ho] at h; simp at h
  | ok o =>
    rw [ho] at h
    cases o with
    | none => simp at h; rw [← h]
    | some m =>
      simp at h
      rw [← h]
      exact alookup_dictInsert_ne m errs hk

theorem validateGo_preserve (currentYear : Int) (input : List (String × PyValue)) :
    ∀ (schema : List (String × FieldSpec)) (errs0 errs : List (String × String)) (k : String),
    validateGo currentYear input schema errs0 = .ok errs →
    k ∉ schema.map Prod.fst →
    alookup k errs = alookup k errs0 := by
  intro schema
  induction schema with
  | nil =>
    intro errs0 errs k h _
    simp [validateGo] at h
    rw [h]
  | cons hd tl ih =>
    intro errs0 errs k h hk
    obtain ⟨n0, f0⟩ := hd
    simp only [List.map, List.mem_cons, not_or] at hk
    simp only [validateGo] at h
    cases hst : stepField currentYear input n0 f0 errs0 with
    | error e => rw [hst] at h; simp at h
    | ok errs1 =>
      rw [hst] at h
      have h1 := ih errs1 errs k h hk.2
      rw [h1]
      exact stepField_preserve hst hk.1

theorem validateGo_lookup (currentYear : Int) (input : List (String × PyValue)) :
    ∀ (schema : List (String × FieldSpec)) (errs0 errs : List (String × String))
      (name : String) (f : FieldSpec),
    (schema.map Prod.fst).Nodup →
    (∀ n, n ∈ schema.map Prod.fst → alookup n errs0 = Option.none) →
    validateGo currentYear input schema errs0 = .ok errs →
    (name, f) ∈ schema →
    ∃ o, fieldOutcome currentYear input name f = Except.ok o ∧ alookup name errs = o := by
  intro schema
  induction schema with
  | nil => intro errs0 errs name f _ _ _ hm; simp at hm
  | cons hd tl ih =>
    intro errs0 errs name f hnd h0 hrun hm
    obtain ⟨n0, f0⟩ := hd
    simp only [List.map, List.nodup_cons] at hnd
    simp only [validateGo] at hrun
    cases hst : stepField currentYear input n0 f0 errs0 with
    | error e => rw [hst] at hrun; simp at hrun
    | ok errs1 =>
      rw [hst] at hrun
      rcases List.mem_cons.mp hm with heq | htl
      · injection heq with hname hf
        subst hname
        subst hf
        have hfresh : alookup name errs = alookup name errs1 :=
          validateGo_preserve currentYear input tl errs1 errs name hrun hnd.1
        rw [stepField_eq_fieldOutcome] at hst
        cases ho : fieldOutcome currentYear input name f with
        | error e => rw [ho] at hst; simp at hst
        | ok o =>
          rw [ho] at hst
          refine ⟨o, rfl, ?_⟩
          cases o with
          | none =>
            simp at hst
            rw [hfresh, ← hst]
            exact h0 name (List.mem_cons_self _ _)
          | some m =>
            simp at hst
            rw [hfresh, ← hst]
            exact alookup_dictInsert_self name m errs0
      · have hne : name ≠ n0 := by
          intro hnn
          exact hnd.1 (hnn ▸ List.mem_map_of_mem Prod.fst htl)
        refine ih errs1 errs name f hnd.2 ?_ hrun htl
        intro n hn
        have hn0 : n ≠ n0 := by
          intro hnn
          exact hnd.1 (hnn ▸ hn)
        rw [stepField_preserve hst hn0]
        exact h0 n (List.mem_cons_of_mem _ hn)

/-! Lemmas about the dict built by the interests loop. -/

theorem foldl_insert_preserve {α β : Type} [DecidableEq α] (f : α → β) :
    ∀ (ids : List α) (acc : List (α × β)) (k : α), k ∉ ids →
    alookup k (ids.foldl (fun a c => dictInsert c (f c) a) acc) = alookup k acc := by
  intro ids
  induction ids with
  | nil => intro acc k _; rfl
  | cons hd tl ih =>
    intro acc k hk
    simp only [List.mem_cons, not_or] at hk
    simp only [List.foldl]
    rw [ih _ k hk.2]
    exact alookup_dictInsert_ne (f hd) acc hk.1

theorem foldl_insert_mem {α β : Type} [DecidableEq α] (f : α → β) :
    ∀ (ids : List α) (acc : List (α × β)) (k : α), k ∈ ids →
    alookup k (ids.foldl (fun a c => dictInsert c (f c) a) acc) = some (f k) := by
  intro ids
  induction ids with
  | nil => intro acc k hk; simp at hk
  | cons hd tl ih =>
    intro acc k hk
    simp only [List.foldl]
    by_cases hmem : k ∈ tl
    · exact ih _ k hmem
    · have hk0 : k = hd := by
        rcases List.mem_cons.mp hk with h | h
        · exact h
        · exact absurd h hmem
      subst hk0
      rw [foldl_insert_preserve f tl _ k hmem]
      exact alookup_dictInsert_self k (f k) acc

theorem foldl_insert_nodup {α β : Type} [DecidableEq α] (f : α → β) :
    ∀ (ids : List α) (acc : List (α × β)), ids.Nodup →
    (∀ k, k ∈ ids → k ∉ acc.map Prod.fst) →
    ids.foldl (fun a c => dictInsert c (f c) a) acc = acc ++ ids.map (fun c => (c, f c)) := by
  intro ids
  induction ids with
  | nil => intro acc _ _; simp
  | cons hd tl ih =>
    intro acc hnd hdisj
    simp only [List.nodup_cons] at hnd
    simp only [List.foldl]
    rw [dictInsert_of_not_mem (f hd) (hdisj hd (List.mem_cons_self _ _))]
    rw [ih _ hnd.2 ?_]
    · simp
    · intro k hk
      simp only [List.map_append, List.mem_append, not_or]
      constructor
      · exact hdisj k (List.mem_cons_of_mem _ hk)
      · simp only [List.map, List.mem_singleton]
        intro hkk
        exact hnd.1 (hkk ▸ hk)

/-! From a clean validation pass of OnlineScoreRequest, extract the clean
per-field pass and the pair condition, and show every supplied field
passed its own validator and can be prepared. -/

theorem onlineScore_valid_parts {currentYear : Int} {input : List (String × PyValue)}
    (h : onlineScoreValidate currentYear input = .ok []) :
    validateSchemaE currentYear onlineScoreSchema input = .ok [] ∧ hasPair input = true := by
  unfold onlineScoreValidate at h
  cases hv : validateSchemaE currentYear onlineScoreSchema input with
  | error e => rw [hv] at h; simp at h
  | ok errs =>
    rw [hv] at h
    cases errs with
    | nil =>
      refine ⟨rfl, ?_⟩
      by_cases hp : hasPair input = true
      · exact hp
      · rw [Bool.not_eq_true] at hp
        simp [hp, dictInsert] at h
    | cons e0 etl =>
      simp at h

theorem valid_field_ok {currentYear : Int} {input : List (String × PyValue)}
    {name : String} {f : FieldSpec} {v : PyValue}
    (hv : validateSchemaE currentYear onlineScoreSchema input = .ok [])
    (hmem : (name, f) ∈ onlineScoreSchema)
    (hsup : alookup name input = some v) :
    fieldValidate currentYear f.ftype v = .ok () := by
  obtain ⟨o, ho, hl⟩ := validateGo_lookup currentYear input onlineScoreSchema [] [] name f
    (by decide) (fun n _ => rfl) hv hmem
  have hnone : o = Option.none := by rw [← hl]; rfl
  subst hnone
  cases hval : fieldValidate currentYear f.ftype v with
  | ok u => cases u; rfl
  | error e =>
    cases e with
    | valueError m => simp [fieldOutcome, hsup, hval] at ho
    | typeError m => simp [fieldOutcome, hsup, hval] at ho

theorem prepare_ok_of_validate_ok {currentYear : Int} {ft : FieldType} {v : PyValue}
    (h : fieldValidate currentYear ft v = .ok ()) :
    ∃ p, prepareValue ft v = .ok p := by
  cases ft with
  | char => exact ⟨_, rfl⟩
  | arguments => exact ⟨_, rfl⟩
  | email => exact ⟨_, rfl⟩
  | phone => exact ⟨_, rfl⟩
  | clientIds => exact ⟨_, rfl⟩
  | date =>
    cases v with
    | str s =>
      simp only [fieldValidate, dateValidate] at h
      cases hp : parseDate s with
      | none => rw [hp] at h; simp at h
      | some dmy =>
        obtain ⟨d, m, y⟩ := dmy
        exact ⟨.date d m y, by simp [prepareValue, prepDate, hp]⟩
    | none => simp [fieldValidate, dateValidate] at h
    | int n => simp [fieldValidate, dateValidate] at h
    | list l => simp [fieldValidate, dateValidate] at h
    | dict d => simp [fieldValidate, dateValidate] at h
  | birthday =>
    cases v with
    | str s =>
      simp only [fieldValidate, birthDayValidate] at h
      cases hp : parseDate s with
      | none => rw [hp] at h; simp at h
      | some dmy =>
        obtain ⟨d, m, y⟩ := dmy
        exact ⟨.date d m y, by simp [prepareValue, prepDate, hp]⟩
    | none => simp [fieldValidate, birthDayValidate] at h
    | int n => simp [fieldValidate, birthDayValidate] at h
    | list l => simp [fieldValidate, birthDayValidate] at h
    | dict d => simp [fieldValidate, birthDayValidate] at h
  | gender =>
    cases v with
    | int n => exact ⟨.int n, rfl⟩
    | str s => simp [fieldValidate, genderValidate] at h
    | none => simp [fieldValidate, genderValidate] at h
    | list l => simp [fieldValidate, genderValidate] at h
    | dict d => simp [fieldValidate, genderValidate] at h

theorem getitem_os_ok {currentYear : Int} {input : List (String × PyValue)}
    {name : String} {f : FieldSpec}
    (hv : validateSchemaE currentYear onlineScoreSchema input = .ok [])
    (hmem : (name, f) ∈ onlineScoreSchema) :
    ∃ p, getitemField onlineScoreSchema input name = .ok p ∧
      (alookup name input = Option.none → p = Prepared.none) := by
  cases hsup : alookup name input with
  | none => exact ⟨.none, by simp [getitemField, hsup], fun _ => rfl⟩
  | some v =>
    have hok := valid_field_ok hv hmem hsup
    obtain ⟨p, hp⟩ := prepare_ok_of_validate_ok hok
    have hsch : alookup name onlineScoreSchema = some f :=
      alookup_of_mem_nodup onlineScoreSchema name f (by decide) hmem
    refine ⟨p, ?_, fun hc => Option.noConfusion hc⟩
    simp [getitemField, hsup, hsch, hp]

theorem prepareArgs_of_valid {currentYear : Int} {input : List (String × PyValue)}
    (hv : validateSchemaE currentYear onlineScoreSchema input = .ok []) :
    ∃ sa, prepareArgs input = .ok sa ∧
      (alookup "phone" input = Option.none → sa.phone = Prepared.none) ∧
      (alookup "email" input = Option.none → sa.email = Prepared.none) ∧
      (alookup "birthday" input = Option.none → sa.birthday = Prepared.none) ∧
      (alookup "gender" input = Option.none → sa.gender = Prepared.none) ∧
      (alookup "first_name" input = Option.none → sa.first_name = Prepared.none) ∧
      (alookup "last_name" input = Option.none → sa.last_name = Prepared.none) := by
  obtain ⟨p1, h1, a1⟩ := @getitem_os_ok _ _ "phone" ⟨.phone, false, true⟩ hv (by decide)
  obtain ⟨p2, h2, a2⟩ := @getitem_os_ok _ _ "email" ⟨.email, false, true⟩ hv (by decide)
  obtain ⟨p3, h3, a3⟩ := @getitem_os_ok _ _ "birthday" ⟨.birthday, false, true⟩ hv (by decide)
  obtain ⟨p4, h4, a4⟩ := @getitem_os_ok _ _ "gender" ⟨.gender, false, true⟩ hv (by decide)
  obtain ⟨p5, h5, a5⟩ := @getitem_os_ok _ _ "first_name" ⟨.char, false, true⟩ hv (by decide)
  obtain ⟨p6, h6, a6⟩ := @getitem_os_ok _ _ "last_name" ⟨.char, false, true⟩ hv (by decide)
  refine ⟨⟨p1, p2, p3, p4, p5, p6⟩, ?_, a1, a2, a3, a4, a5, a6⟩
  simp [prepareArgs, h1, h2, h3, h4, h5, h6]

/-! Claim theorems. -/

/-- C3: PhoneField validation accepts a value exactly when it is a string or
an integer whose stringified form starts with the digit 7, has exactly 11
characters, and consists only of digit characters; any other length, leading
digit, non-digit content, or type is rejected. -/
theorem c3_phone_accepts_iff (v : PyValue) :
    phoneValidate v = Except.ok () ↔
      (isStrOrInt v = true ∧ startsWith7 (pyStrFn v) = true ∧
       (pyStrFn v).length = 11 ∧ isDigitStr (pyStrFn v) = true) := by
  cases v with
  | str s =>
    by_cases hp : phoneOk s = true
    · have hps := hp
      simp only [phoneOk, Bool.and_eq_true, beq_iff_eq] at hps
      simp [phoneValidate, hp, isStrOrInt, pyStrFn, hps.1.1, hps.1.2, hps.2]
    · rw [Bool.not_eq_true] at hp
      simp only [phoneValidate, hp, Bool.false_eq_true, if_false, isStrOrInt, pyStrFn]
      constructor
      · intro hcon
        exact Except.noConfusion hcon
      · rintro ⟨-, h1, h2, h3⟩
        rw [show phoneOk s = true by simp [phoneOk, h1, h2, h3]] at hp
        exact Bool.noConfusion hp
  | int n =>
    by_cases hp : phoneOk (toString n) = true
    · have hps := hp
      simp only [phoneOk, Bool.and_eq_true, beq_iff_eq] at hps
      simp [phoneValidate, hp, isStrOrInt, pyStrFn, hps.1.1, hps.1.2, hps.2]
    · rw [Bool.not_eq_true] at hp
      simp only [phoneValidate, hp, Bool.false_eq_true, if_false, isStrOrInt, pyStrFn]
      constructor
      · intro hcon
        exact Except.noConfusion hcon
      · rintro ⟨-, h1, h2, h3⟩
        rw [show phoneOk (toString n) = true by simp [phoneOk, h1, h2, h3]] at hp
        exact Bool.noConfusion hp
  | none => simp [phoneValidate, isStrOrInt]
  | list l => simp [phoneValidate, isStrOrInt]
  | dict d => simp [phoneValidate, isStrOrInt]

/-- C9 (counterexample): BirthDay validation of one and the same value gives
different verdicts under two different ambient current years, refuting the
claim that every field validation is a pure function of the input alone with
no dependence on the current time. -/
theorem c9_counterexample :
    fieldValidate 1980 FieldType.birthday (PyValue.str "01.07.1920") = Except.ok () ∧
    fieldValidate 2026 FieldType.birthday (PyValue.str "01.07.1920") =
      Except.error (PyErr.valueError "Incorrect birth day") ∧
    fieldValidate 1980 FieldType.birthday (PyValue.str "01.07.1920") ≠
      fieldValidate 2026 FieldType.birthday (PyValue.str "01.07.1920") :=
  ⟨by decide, by decide, by decide⟩

/-- C9 (amended): every field validator except BirthDay is deterministic and
a pure function of the supplied value alone, with no dependence on the
ambient current year; BirthDay validation is a pure function of the value
and the current year together. -/
theorem c9_purity_except_birthday (ft : FieldType) (cy1 cy2 : Int) (v : PyValue)
    (h : ft ≠ FieldType.birthday) :
    fieldValidate cy1 ft v = fieldValidate cy2 ft v := by
  cases ft with
  | birthday => exact absurd rfl h
  | char => rfl
  | arguments => rfl
  | email => rfl
  | phone => rfl
  | date => rfl
  | gender => rfl
  | clientIds => rfl

/-- C9 (witness): the amended purity theorem applied to the phone validator at
two different current years. -/
theorem c9_witness :
    fieldValidate 1980 FieldType.phone (PyValue.str "79998887766") =
      fieldValidate 2026 FieldType.phone (PyValue.str "79998887766") :=
  c9_purity_except_birthday FieldType.phone 1980 2026 (PyValue.str "79998887766") (by decide)

/-- C1 (counterexample): with no argument fields supplied, every supplied
field trivially passes and no pair is present, and the error mapping gets
key arguments with the message as written in the code, which is not the
message stated in the claim. -/
theorem c1_counterexample :
    onlineScoreValidate 2026 [] = Except.ok [("arguments", "No valid arguments pair")] ∧
    "No valid arguments pair" ≠ "no valid argument pair" :=
  ⟨by decide, by decide⟩

/-- C1 (amended): when every supplied field passes its individual validation,
OnlineScoreRequest validation succeeds exactly when one of the pairs
phone with email, first_name with last_name, or gender with birthday has
both members supplied; otherwise the error mapping gets key arguments with
message No valid arguments pair.  When per-field errors exist, the
cross-field rule is not evaluated and no arguments key appears. -/
theorem c1_cross_field (cy : Int) (input : List (String × PyValue)) :
    (validateSchemaE cy onlineScoreSchema input = Except.ok [] →
      (onlineScoreValidate cy input = Except.ok [] ↔ hasPair input = true) ∧
      (hasPair input = false →
        onlineScoreValidate cy input =
          Except.ok [("arguments", "No valid arguments pair")])) ∧
    (∀ errs, validateSchemaE cy onlineScoreSchema input = Except.ok errs → errs ≠ [] →
      onlineScoreValidate cy input = Except.ok errs ∧
      alookup "arguments" errs = Option.none) := by
  constructor
  · intro h
    constructor
    · by_cases hp : hasPair input = true
      · simp [onlineScoreValidate, h, hp]
      · rw [Bool.not_eq_true] at hp
        simp [onlineScoreValidate, h, hp, dictInsert]
    · intro hp
      simp [onlineScoreValidate, h, hp, dictInsert]
  · intro errs h hne
    refine ⟨?_, ?_⟩
    · cases errs with
      | nil => exact absurd rfl hne
      | cons e0 etl => simp [onlineScoreValidate, h]
    · have : alookup "arguments" errs = alookup "arguments" ([] : List (String × String)) :=
        validateGo_preserve cy input onlineScoreSchema [] errs "arguments" h (by decide)
      rw [this]
      rfl

/-- C1 (witness): supplying only first_name fails with the arguments error,
while supplying first_name and last_name validates cleanly. -/
theorem c1_witness :
    onlineScoreValidate 2026 [("first_name", PyValue.str "A"), ("last_name", PyValue.str "B")] =
      Except.ok [] ∧
    onlineScoreValidate 2026 [("first_name", PyValue.str "A")] =
      Except.ok [("arguments", "No valid arguments pair")] := by
  constructor
  · exact ((c1_cross_field 2026 _).1 (by decide)).1.mpr (by decide)
  · exact ((c1_cross_field 2026 _).1 (by decide)).2 (by decide)

/-- C2 (counterexample): two inputs refute the claimed per-field contract.
A clients-interests input whose date field holds an integer makes validate
abort with an uncaught TypeError instead of recording a per-field message,
and a method envelope whose method field is an empty list records the
validator message, not the blank message, because the field validator runs
even on an empty non-nullable value and overwrites the blank entry. -/
theorem c2_counterexample :
    validateSchemaE 2026 clientsInterestsSchema
      [("client_ids", PyValue.list (.cons (.int 1) .nil)), ("date", PyValue.int 5)] =
      Except.error "strptime() argument 1 must be str" ∧
    validateSchemaE 2026 methodSchema
      [("login", PyValue.str "a"), ("token", PyValue.str "b"),
       ("arguments", PyValue.dict .nil), ("method", PyValue.list .nil)] =
      Except.ok [("method", "This field must be a string")] ∧
    "This field must be a string" ≠ "This field can\x27t be blank" :=
  ⟨by decide, by decide, by decide⟩

/-- C2 (amended): when validate completes without an uncaught TypeError, the
error entry of every declared field is exactly the outcome of that field
alone: absent and required gives the required message, absent and optional
gives no entry, and for a supplied value the validator always runs, a
raised ValueError message winning over the blank message recorded for an
empty value on a non-nullable field; fields do not influence each other. -/
theorem c2_per_field_independence (cy : Int) (schema : List (String × FieldSpec))
    (input : List (String × PyValue)) (errs : List (String × String))
    (name : String) (f : FieldSpec)
    (hnodup : (schema.map Prod.fst).Nodup)
    (hrun : validateSchemaE cy schema input = Except.ok errs)
    (hmem : (name, f) ∈ schema) :
    ∃ o, fieldOutcome cy input name f = Except.ok o ∧ alookup name errs = o :=
  validateGo_lookup cy input schema [] errs name f hnodup (fun _ _ => rfl) hrun hmem

/-- C2 (witness): the per-field theorem applied to the login field of a
method envelope that supplies only login. -/
theorem c2_witness :
    ∃ o, fieldOutcome 2026 [("login", PyValue.str "x")] "login"
        ⟨FieldType.char, true, true⟩ = Except.ok o ∧
      alookup "login" [("token", "This field is required"),
        ("arguments", "This field is required"),
        ("method", "This field is required")] = o :=
  c2_per_field_independence 2026 methodSchema [("login", PyValue.str "x")]
    [("token", "This field is required"), ("arguments", "This field is required"),
     ("method", "This field is required")] "login" ⟨FieldType.char, true, true⟩
    (by decide) (by decide) (by decide)

/-- C4 (counterexample): a non-nullable optional field that is absent is
accepted, because absence is governed solely by required; and a supplied
empty mapping on a non-nullable field is accepted, because the empty dict
is not equal to any member of the empty-values tuple.  Both refute the
claimed empty-value set. -/
theorem c4_counterexample :
    validateSchemaE 2026 [("x", ⟨FieldType.char, false, false⟩)] [] = Except.ok [] ∧
    validateSchemaE 2026 [("x", ⟨FieldType.arguments, true, false⟩)]
      [("x", PyValue.dict .nil)] = Except.ok [] :=
  ⟨by decide, by decide⟩

/-- C4 (amended): a supplied value from the empty-value set (null, empty
string, empty list) on a non-nullable field never validates cleanly, while
absence is governed solely by required: a required field that is absent
always gets the required error, and an optional absent field is accepted
regardless of nullability. -/
theorem c4_required_nullable (cy : Int) (name : String) (f : FieldSpec) (v : PyValue) :
    (isEmptyValue v = true → f.nullable = false →
      validateSchemaE cy [(name, f)] [(name, v)] ≠ Except.ok []) ∧
    (f.required = true →
      validateSchemaE cy [(name, f)] [] = Except.ok [(name, "This field is required")]) ∧
    (f.required = false → validateSchemaE cy [(name, f)] [] = Except.ok []) := by
  refine ⟨?_, ?_, ?_⟩
  · intro he hn
    cases hval : fieldValidate cy f.ftype v with
    | ok u =>
      intro hcon
      simp [validateSchemaE, validateGo, stepField, alookup, he, hn, hval, dictInsert] at hcon
    | error e =>
      cases e with
      | valueError m =>
        intro hcon
        simp [validateSchemaE, validateGo, stepField, alookup, he, hn, hval, dictInsert] at hcon
      | typeError m =>
        intro hcon
        simp [validateSchemaE, validateGo, stepField, alookup, he, hn, hval] at hcon
  · intro hr
    simp [validateSchemaE, validateGo, stepField, alookup, hr, dictInsert]
  · intro hr
    simp [validateSchemaE, validateGo, stepField, alookup, hr]

/-- C4 (witness): the amended theorem applied to a required non-nullable
char field supplied with the empty string, to an absent required nullable
char field shaped like login, token and arguments, and to an absent
optional field under both nullabilities. -/
theorem c4_witness :
    validateSchemaE 2026 [("x", ⟨FieldType.char, true, false⟩)] [("x", PyValue.str "")] ≠
      Except.ok [] ∧
    validateSchemaE 2026 [("login", ⟨FieldType.char, true, true⟩)] [] =
      Except.ok [("login", "This field is required")] ∧
    validateSchemaE 2026 [("x", ⟨FieldType.char, false, true⟩)] [] = Except.ok [] ∧
    validateSchemaE 2026 [("x", ⟨FieldType.char, false, false⟩)] [] = Except.ok [] := by
  refine ⟨(c4_required_nullable 2026 "x" ⟨FieldType.char, true, false⟩
      (PyValue.str "")).1 (by decide) rfl, ?_, ?_, ?_⟩
  · exact (c4_required_nullable 2026 "login" ⟨FieldType.char, true, true⟩ PyValue.none).2.1 rfl
  · exact (c4_required_nullable 2026 "x" ⟨FieldType.char, false, true⟩ PyValue.none).2.2 rfl
  · exact (c4_required_nullable 2026 "x" ⟨FieldType.char, false, false⟩ PyValue.none).2.2 rfl

/-- C10 (counterexample): indexing a schema instance by a declared field name
can fail: on an instance holding an unparseable supplied birthday the
lookup raises inside prepare_value, refuting that indexing never fails. -/
theorem c10_counterexample :
    getitemField onlineScoreSchema [("birthday", PyValue.str "bad")] "birthday" =
      Except.error "ValueError: time data does not match format" := by
  decide

/-- C10 (amended): indexing an instance by a declared name that was not
supplied always returns None rather than raising; and on an instance that
passed OnlineScoreRequest validation, preparing all six scoring arguments
succeeds, the value of every absent optional field being None, which is
what the scoring handler passes to the collaborator. -/
theorem c10_getitem (cy : Int) (input : List (String × PyValue)) :
    (∀ name, alookup name input = Option.none →
      getitemField onlineScoreSchema input name = Except.ok Prepared.none) ∧
    (onlineScoreValidate cy input = Except.ok [] →
      ∃ sa, prepareArgs input = Except.ok sa ∧
        (alookup "phone" input = Option.none → sa.phone = Prepared.none) ∧
        (alookup "email" input = Option.none → sa.email = Prepared.none) ∧
        (alookup "birthday" input = Option.none → sa.birthday = Prepared.none) ∧
        (alookup "gender" input = Option.none → sa.gender = Prepared.none) ∧
        (alookup "first_name" input = Option.none → sa.first_name = Prepared.none) ∧
        (alookup "last_name" input = Option.none → sa.last_name = Prepared.none)) := by
  constructor
  · intro name h
    simp [getitemField, h]
  · intro h
    exact prepareArgs_of_valid (onlineScore_valid_parts h).1

/-- C10 (witness): the amended theorem applied to a valid instance supplying
only first_name and last_name, whose phone prepares to None. -/
theorem c10_witness :
    getitemField onlineScoreSchema
      [("first_name", PyValue.str "A"), ("last_name", PyValue.str "B")] "phone" =
      Except.ok Prepared.none ∧
    ∃ sa, prepareArgs [("first_name", PyValue.str "A"), ("last_name", PyValue.str "B")] =
        Except.ok sa ∧ sa.phone = Prepared.none := by
  have h := c10_getitem 2026 [("first_name", PyValue.str "A"), ("last_name", PyValue.str "B")]
  refine ⟨h.1 "phone" (by decide), ?_⟩
  obtain ⟨sa, hsa, hp, -, -, -, -, -⟩ := h.2 (by decide)
  exact ⟨sa, hsa, hp (by decide)⟩

/-- C5: evaluation at the failing input.  A method envelope that omits the
optional account field passes MethodRequest validation, yet for a non-admin
login check_auth raises a TypeError instead of returning a boolean: the
account attribute resolves to the class-level field descriptor object and
cannot be concatenated with the login string.  The uncaught exception
surfaces as a 500 response, not the claimed 403. -/
theorem c5_check_auth_raises (H : String → String) (nowKey : String) (cy : Int) :
    validateSchemaE cy methodSchema
      [("login", PyValue.str "h&f"), ("token", PyValue.str "t"),
       ("arguments", PyValue.dict .nil), ("method", PyValue.str "online_score")] =
      Except.ok [] ∧
    check_auth H nowKey
      [("login", PyValue.str "h&f"), ("token", PyValue.str "t"),
       ("arguments", PyValue.dict .nil), ("method", PyValue.str "online_score")] =
      Except.error "TypeError: can only concatenate str" :=
  ⟨rfl, rfl⟩

/-- C6 (counterexample): a fully valid, correctly authenticated envelope
whose method is neither online_score nor clients_interests makes the
dispatcher raise an uncaught KeyError, and the HTTP layer turns it into a
500 response, not the claimed 404. -/
theorem c6_counterexample :
    method_handler (fun s => s) "2026100112" 2026 (fun _ => 0) (fun _ => PyValue.none)
      [("account", PyValue.str "acc"), ("login", PyValue.str "h&f"),
       ("token", PyValue.str "acch&fOtus"), ("arguments", PyValue.dict .nil),
       ("method", PyValue.str "foo")] = Except.error "KeyError" ∧
    dispatchWithCatch (fun s => s) "2026100112" 2026 (fun _ => 0) (fun _ => PyValue.none)
      [("account", PyValue.str "acc"), ("login", PyValue.str "h&f"),
       ("token", PyValue.str "acch&fOtus"), ("arguments", PyValue.dict .nil),
       ("method", PyValue.str "foo")] = (Resp.text "Internal Server Error", 500) ∧
    (dispatchWithCatch (fun s => s) "2026100112" 2026 (fun _ => 0) (fun _ => PyValue.none)
      [("account", PyValue.str "acc"), ("login", PyValue.str "h&f"),
       ("token", PyValue.str "acch&fOtus"), ("arguments", PyValue.dict .nil),
       ("method", PyValue.str "foo")]).2 ≠ 404 :=
  ⟨by decide, by decide, by decide⟩

/-- C6 (amended): for every envelope that validates and authenticates but
names a method other than online_score and clients_interests, the
dispatcher raises an uncaught KeyError, which the HTTP layer reports as a
500 Internal Server Error response; 404 is reserved for unknown URL
routes. -/
theorem c6_unknown_method (H : String → String) (nowKey : String) (cy : Int)
    (gs : ScoreArgs → Int) (gi : PyValue → PyValue)
    (body : List (String × PyValue)) (m : String)
    (hv : validateSchemaE cy methodSchema body = Except.ok [])
    (ha : check_auth H nowKey body = Except.ok true)
    (hm : alookup "method" body = some (PyValue.str m))
    (h1 : m ≠ "online_score") (h2 : m ≠ "clients_interests") :
    method_handler H nowKey cy gs gi body = Except.error "KeyError" ∧
    dispatchWithCatch H nowKey cy gs gi body = (Resp.text "Internal Server Error", 500) := by
  have hme : method_handler H nowKey cy gs gi body = Except.error "KeyError" := by
    unfold method_handler
    rw [hv]
    simp [ha, hm, h1, h2]
  exact ⟨hme, by unfold dispatchWithCatch; rw [hme]⟩

/-- C6 (witness): the amended theorem applied to a concrete authenticated
envelope asking for an unknown method. -/
theorem c6_witness :
    method_handler (fun s => s) "nk" 2026 (fun _ => 1) (fun _ => PyValue.none)
      [("account", PyValue.str "a"), ("login", PyValue.str "u"),
       ("token", PyValue.str "auOtus"), ("arguments", PyValue.dict .nil),
       ("method", PyValue.str "unknown_method")] = Except.error "KeyError" ∧
    dispatchWithCatch (fun s => s) "nk" 2026 (fun _ => 1) (fun _ => PyValue.none)
      [("account", PyValue.str "a"), ("login", PyValue.str "u"),
       ("token", PyValue.str "auOtus"), ("arguments", PyValue.dict .nil),
       ("method", PyValue.str "unknown_method")] = (Resp.text "Internal Server Error", 500) :=
  c6_unknown_method (fun s => s) "nk" 2026 (fun _ => 1) (fun _ => PyValue.none)
    [("account", PyValue.str "a"), ("login", PyValue.str "u"),
     ("token", PyValue.str "auOtus"), ("arguments", PyValue.dict .nil),
     ("method", PyValue.str "unknown_method")] "unknown_method"
    (by decide) (by decide) (by decide) (by decide) (by decide)

/-- C8: for every valid clients_interests request the handler queries the
interests collaborator once per client id in input order, returns the dict
mapping each client id to its interest list, and records the number of
client ids into the context; with distinct ids the response dict lists the
ids in input order, one entry each. -/
theorem c8_interests (gi : PyValue → PyValue) (cy : Int)
    (args : List (String × PyValue)) (ids : PyList)
    (hv : validateSchemaE cy clientsInterestsSchema args = Except.ok [])
    (hc : alookup "client_ids" args = some (PyValue.list ids)) :
    clients_interests_handler gi cy args =
      Except.ok ⟨Resp.interests
        (ids.toList.foldl (fun acc cid => dictInsert cid (gi cid) acc) []),
        200, Option.none, some ids.toList.length, ids.toList⟩ ∧
    (∀ cid, cid ∈ ids.toList →
      alookup cid (ids.toList.foldl (fun acc cid2 => dictInsert cid2 (gi cid2) acc) []) =
        some (gi cid)) ∧
    (ids.toList.Nodup →
      ids.toList.foldl (fun acc cid => dictInsert cid (gi cid) acc) [] =
        ids.toList.map (fun cid => (cid, gi cid))) := by
  refine ⟨?_, ?_, ?_⟩
  · unfold clients_interests_handler
    rw [hv]
    simp [hc]
  · intro cid hcid
    exact foldl_insert_mem gi ids.toList [] cid hcid
  · intro hnd
    have h := foldl_insert_nodup gi ids.toList [] hnd (by simp)
    simpa using h

/-- C8 (witness): the theorem applied to client ids 1, 2 and 3 with a
constant collaborator: exactly three entries keyed 1, 2, 3 in order, the
trace queries each id once in input order, and nclients is 3. -/
theorem c8_witness :
    clients_interests_handler (fun _ => PyValue.list .nil) 2026
      [("client_ids", PyValue.list (.cons (.int 1) (.cons (.int 2) (.cons (.int 3) .nil))))] =
      Except.ok ⟨Resp.interests
        [(PyValue.int 1, PyValue.list .nil), (PyValue.int 2, PyValue.list .nil),
         (PyValue.int 3, PyValue.list .nil)],
        200, Option.none, some 3, [PyValue.int 1, PyValue.int 2, PyValue.int 3]⟩ := by
  rw [(c8_interests (fun _ => PyValue.list .nil) 2026
    [("client_ids", PyValue.list (.cons (.int 1) (.cons (.int 2) (.cons (.int 3) .nil))))]
    (.cons (.int 1) (.cons (.int 2) (.cons (.int 3) .nil)))
    (by decide) (by decide)).1]
  decide

/-- C7: for an envelope with the admin login, a valid admin token, method
online_score, and arguments accepted by OnlineScoreRequest, the dispatcher
answers score 42 with status 200, and the answer does not depend on the
scoring collaborator at all; a non-admin envelope with the same arguments
instead answers with the score computed by the collaborator on the
prepared argument values. -/
theorem c7_admin_score (H : String → String) (nowKey : String) (cy : Int)
    (gs gs2 : ScoreArgs → Int) (gi : PyValue → PyValue)
    (body : List (String × PyValue)) (d : PyDict) :
    (alookup "login" body = some (PyValue.str "admin") →
     alookup "token" body = some (PyValue.str (H (nowKey ++ ADMIN_SALT))) →
     alookup "method" body = some (PyValue.str "online_score") →
     alookup "arguments" body = some (PyValue.dict d) →
     validateSchemaE cy methodSchema body = Except.ok [] →
     onlineScoreValidate cy d.toList = Except.ok [] →
     method_handler H nowKey cy gs gi body =
       Except.ok ⟨Resp.score 42, 200, some (d.toList.map Prod.fst), Option.none, []⟩ ∧
     method_handler H nowKey cy gs gi body = method_handler H nowKey cy gs2 gi body) ∧
    (∀ l a, alookup "login" body = some (PyValue.str l) → l ≠ ADMIN_LOGIN →
     alookup "account" body = some (PyValue.str a) →
     alookup "token" body = some (PyValue.str (H (a ++ l ++ SALT))) →
     alookup "method" body = some (PyValue.str "online_score") →
     alookup "arguments" body = some (PyValue.dict d) →
     validateSchemaE cy methodSchema body = Except.ok [] →
     onlineScoreValidate cy d.toList = Except.ok [] →
     ∃ sa, prepareArgs d.toList = Except.ok sa ∧
       method_handler H nowKey cy gs gi body =
         Except.ok ⟨Resp.score (gs sa), 200, some (d.toList.map Prod.fst), Option.none, []⟩) := by
  constructor
  · intro hlogin htoken hmeth hargs hv hos
    have hli : loginIsAdmin body = true := by
      simp [loginIsAdmin, hlogin, ADMIN_LOGIN]
    have hca : check_auth H nowKey body = Except.ok true := by
      unfold check_auth
      simp [hli, tokenMatches, htoken]
    have key : ∀ g : ScoreArgs → Int, method_handler H nowKey cy g gi body =
        Except.ok ⟨Resp.score 42, 200, some (d.toList.map Prod.fst), Option.none, []⟩ := by
      intro g
      unfold method_handler
      rw [hv]
      simp only [List.isEmpty_nil, if_true, hca, hmeth, hargs]
      unfold online_score_handler
      rw [hos]
      simp [hli]
    exact ⟨key gs, by rw [key gs, key gs2]⟩
  · intro l a hlogin hl hacc htoken hmeth hargs hv hos
    have hli : loginIsAdmin body = false := by
      simp [loginIsAdmin, hlogin, beq_eq_false_iff_ne]
      exact hl
    have hca : check_auth H nowKey body = Except.ok true := by
      unfold check_auth
      simp [hli, hacc, hlogin, tokenMatches, htoken]
    obtain ⟨sa, hsa, -, -, -, -, -, -⟩ :=
      prepareArgs_of_valid (onlineScore_valid_parts hos).1
    refine ⟨sa, hsa, ?_⟩
    unfold method_handler
    rw [hv]
    simp only [List.isEmpty_nil, if_true, hca, hmeth, hargs]
    unfold online_score_handler
    rw [hos]
    simp [hli, hsa]

/-- C7 (witness): the theorem applied to concrete admin and non-admin
envelopes carrying the same first_name and last_name arguments; the admin
answer is 42 for two different collaborators, the non-admin answer is the
collaborator result 7. -/
theorem c7_witness :
    method_handler (fun s => s) "nk" 2026 (fun _ => 7) (fun _ => PyValue.none)
      [("login", PyValue.str "admin"), ("token", PyValue.str "nk42"),
       ("arguments", PyValue.dict (.cons "first_name" (.str "A")
         (.cons "last_name" (.str "B") .nil))),
       ("method", PyValue.str "online_score")] =
      Except.ok ⟨Resp.score 42, 200, some ["first_name", "last_name"], Option.none, []⟩ ∧
    ∃ sa, prepareArgs [("first_name", PyValue.str "A"), ("last_name", PyValue.str "B")] =
        Except.ok sa ∧
      method_handler (fun s => s) "nk" 2026 (fun _ => 7) (fun _ => PyValue.none)
        [("account", PyValue.str "ac"), ("login", PyValue.str "u"),
         ("token", PyValue.str "acuOtus"),
         ("arguments", PyValue.dict (.cons "first_name" (.str "A")
           (.cons "last_name" (.str "B") .nil))),
         ("method", PyValue.str "online_score")] =
        Except.ok ⟨Resp.score 7, 200, some ["first_name", "last_name"], Option.none, []⟩ := by
  constructor
  · exact ((c7_admin_score (fun s => s) "nk" 2026 (fun _ => 7) (fun _ => 9)
      (fun _ => PyValue.none)
      [("login", PyValue.str "admin"), ("token", PyValue.str "nk42"),
       ("arguments", PyValue.dict (.cons "first_name" (.str "A")
         (.cons "last_name" (.str "B") .nil))),
       ("method", PyValue.str "online_score")]
      (.cons "first_name" (.str "A") (.cons "last_name" (.str "B") .nil))).1
      (by decide) (by decide) (by decide) (by decide) (by decide) (by decide)).1
  · obtain ⟨sa, hsa, hres⟩ := (c7_admin_score (fun s => s) "nk" 2026 (fun _ => 7) (fun _ => 9)
      (fun _ => PyValue.none)
      [("account", PyValue.str "ac"), ("login", PyValue.str "u"),
       ("token", PyValue.str "acuOtus"),
       ("arguments", PyValue.dict (.cons "first_name" (.str "A")
         (.cons "last_name" (.str "B") .nil))),
       ("method", PyValue.str "online_score")]
      (.cons "first_name" (.str "A") (.cons "last_name" (.str "B") .nil))).2
      "u" "ac" (by decide) (by decide) (by decide) (by decide) (by decide) (by decide)
      (by decide) (by decide)
    exact ⟨sa, hsa, hres⟩

end ScoringApi
